import Mathlib

/-!
Shallow embedding of the MCA lead-finder pipeline (api/search.js, the
multi-source handler, and the enrichment waterfall of api/leads.js).

Network effects (provider APIs, robots.txt fetches, page fetches) are
modelled as explicit oracle functions passed into each definition: a
function argument stands for the outcome of the corresponding network
call, exactly as the surrounding code observes it.  All string scanning
(URL-key normalization, the UCC filing-reference regex, the tag regexes)
is embedded directly over lists of characters, mirroring the JavaScript
semantics on ASCII text.
-/

namespace MCA

/-- Raw provider hit: the common result shape produced by every provider
adapter in api/search.js (`{title, url, snippet, source}`).  A missing or
undefined JS field is modelled as the empty string. -/
structure Hit where
  title : String
  url : String
  snippet : String
  source : String
deriving Repr, DecidableEq

/-- ASCII model of the JavaScript whitespace class used by `\s`, `trim`
and `replace(/\s+/g, ...)`. -/
def jsSpace (c : Char) : Bool :=
  c == ' ' || c == '\t' || c == '\n' || c == '\r' || c == '\x0b' || c == '\x0c'

/-- JavaScript `String.prototype.trim` on a character list. -/
def trimL (l : List Char) : List Char :=
  ((l.dropWhile jsSpace).reverse.dropWhile jsSpace).reverse

/-- JavaScript `String.prototype.trim`. -/
def jsTrim (s : String) : String :=
  String.mk (trimL s.toList)

/-- JavaScript `String.prototype.toLowerCase` (ASCII model). -/
def lowerStr (s : String) : String :=
  String.mk (s.toList.map Char.toLower)

/-- URL deduplication key from api/search.js line 279:
`(r.url.split('#')[0].split('?')[0]).toLowerCase()`.
`split(sep)[0]` is the text before the first separator, i.e. a
`takeWhile`; the two in sequence keep the text before the first `#` and
then before the first `?`. -/
def normKey (u : String) : String :=
  String.mk ((((u.toList.takeWhile (fun c => c != '#')).takeWhile
      (fun c => c != '?')).map Char.toLower))

/-- Loop body of the raw-hit dedup stage, api/search.js lines 275-284:
skip hits with a falsy url, skip keys already seen, push survivors, and
break once 60 survivors have been collected (the check runs after the
push, so the 60th survivor is kept).  `seen` is the set of keys of the
already-kept hits and `n` their count. -/
def dedupeAux : List Hit → List String → Nat → List Hit
  | [], _, _ => []
  | r :: rest, seen, n =>
    if r.url = "" then dedupeAux rest seen n
    else if normKey r.url ∈ seen then dedupeAux rest seen n
    else if 60 ≤ n + 1 then [r]
    else r :: dedupeAux rest (normKey r.url :: seen) (n + 1)

/-- Dedup stage of the handler (api/search.js lines 274-284). -/
def dedupe (rs : List Hit) : List Hit :=
  dedupeAux rs [] 0

/-- Modelled from the spec (section 4.6 Deduplicator: stable,
order-preserving filter keyed by normalized URL, first occurrence wins):
keeps exactly the hits with a non-empty url whose key was not seen among
earlier kept hits, with no cap.  Used as the specification side of the
refinement statement for the dedup stage. -/
def firstOccs : List Hit → List String → List Hit
  | [], _ => []
  | r :: rest, seen =>
    if r.url = "" then firstOccs rest seen
    else if normKey r.url ∈ seen then firstOccs rest seen
    else r :: firstOccs rest (normKey r.url :: seen)

/-- JavaScript word character, the `\w` class used by the `\b` word
boundary ( `[A-Za-z0-9_]` ). -/
def isWordChar (c : Char) : Bool := c.isAlphanum || c == '_'

/-- Character class of the filing-reference capture group,
`[A-Za-z0-9\-\/]`. -/
def uccRefChar (c : Char) : Bool := c.isAlphanum || c == '-' || c == '/'

/-- Does the character list start with the given needle? -/
def startsWithL : List Char → List Char → Bool
  | [], _ => true
  | _ :: _, [] => false
  | n :: ns, h :: hs => n == h && startsWithL ns hs

/-- Substring test: does the needle occur anywhere in the haystack?
This models a JavaScript regex `test` whose pattern is a plain literal
alternative. -/
def hasSub (needle : List Char) : List Char → Bool
  | [] => startsWithL needle []
  | c :: rest => startsWithL needle (c :: rest) || hasSub needle rest

/-- String-level wrapper for hasSub. -/
def hasSubStr (needle hay : String) : Bool :=
  hasSub needle.toList hay.toList

/-- One match attempt of `/\bUCC[-\s]*1[:\s#]?\s*([A-Za-z0-9\-\/]{5,50})/i`
(api/search.js line 191) at the head of `l`, where `prev` is the
character just before this position (none at the start of the text).
Returns the captured group and the remaining text after the whole match.
Each quantifier here is greedy and, for this particular pattern, maximal
munch is equivalent to the backtracking semantics: `[-\s]*` excludes the
mandatory `1` that follows it, `[:\s#]?` and `\s*` feed into a capture
class that excludes `:` , `#` and whitespace, and nothing follows the
capture. -/
def capFrom (l5 : List Char) : Option (List Char × List Char) :=
  let run := l5.takeWhile uccRefChar
  if run.length < 5 then none
  else
    let cap := run.take 50
    some (cap, l5.drop cap.length)

/-- Optional separator `[:\s#]?` (greedy: consume one such character
when present). -/
def consumeSep (l3 : List Char) : List Char :=
  match l3 with
  | c :: tl => if c == ':' || jsSpace c || c == '#' then tl else l3
  | [] => []

/-- Stem of the pattern, `\bUCC[-\s]*1[:\s#]?\s*`: word boundary, the
case-insensitive literal UCC, any run of hyphens and whitespace, the
mandatory digit 1, the optional separator and any further whitespace.
On success, returns the text at which the capture group starts. -/
def uccStem (prev : Option Char) (l : List Char) : Option (List Char) :=
  let bOK : Bool := match prev with
    | none => true
    | some p => !isWordChar p
  if !bOK then none
  else
    match l with
    | c1 :: c2 :: c3 :: rest =>
      if c1.toLower == 'u' && c2.toLower == 'c' && c3.toLower == 'c' then
        match rest.dropWhile (fun c => c == '-' || jsSpace c) with
        | '1' :: l3 => some ((consumeSep l3).dropWhile jsSpace)
        | _ => none
      else none
    | _ => none

def matchUCCAt (prev : Option Char) (l : List Char) :
    Option (List Char × List Char) :=
  match uccStem prev l with
  | none => none
  | some l5 => capFrom l5

/-- Global-flag exec loop of the filing-reference regex: try a match at
each position left to right; on success continue after the end of the
match (lastIndex semantics).  Fuel is the length of the scanned text;
every step consumes at least one character, so this fuel is never
exhausted early. -/
def scanUCCGo : Nat → Option Char → List Char → List (List Char)
  | 0, _, _ => []
  | _ + 1, _, [] => []
  | fuel + 1, prev, c :: rest =>
    match matchUCCAt prev (c :: rest) with
    | some (cap, rem) => cap :: scanUCCGo fuel cap.getLast? rem
    | none => scanUCCGo fuel (some c) rest

/-- All captures of the filing-reference regex over a text, in match
order (api/search.js lines 190-193: the while loop pushing m[1]). -/
def extractUCC (s : String) : List String :=
  (scanUCCGo s.toList.length none s.toList).map
    (fun l => String.mk l)

/-- UCC tag test, api/search.js line 184:
`/ucc-1|ucc 1|financing statement|financing-statement|ucc filing|ucc filing/i`
applied to the already lower-cased text (the source lists `ucc filing`
twice; the duplicate alternative is redundant). -/
def tagUCCHit (lc : String) : Bool :=
  hasSubStr "ucc-1" lc || hasSubStr "ucc 1" lc ||
  hasSubStr "financing statement" lc ||
  hasSubStr "financing-statement" lc || hasSubStr "ucc filing" lc

/-- FUNDING tag test, api/search.js line 185 (duplicated alternatives
`seeking funding` and `apply for funding` appear once here). -/
def tagFundingHit (lc : String) : Bool :=
  hasSubStr "merchant cash advance" lc ||
  hasSubStr "merchant-cash-advance" lc || hasSubStr "mca" lc ||
  hasSubStr "seeking funding" lc || hasSubStr "need funding" lc ||
  hasSubStr "apply for funding" lc || hasSubStr "apply for a loan" lc ||
  hasSubStr "need a loan" lc

/-- Word boundary after a literal word: end of text or a non-word
character. -/
def boundaryAfter (l : List Char) : Bool :=
  match l with
  | [] => true
  | c :: _ => !isWordChar c

/-- Match of a `\b`-delimited literal word at the current position (all
the revenue-hint words start and end with word characters, so both
boundaries reduce to the neighbour being absent or non-word). -/
def bWordAt (prev : Option Char) (w : List Char) (l : List Char) : Bool :=
  (match prev with
    | none => true
    | some p => !isWordChar p) &&
  startsWithL w l && boundaryAfter (l.drop w.length)

/-- Match of `\$[0-9]{1,3}k` at the current position: with backtracking,
a match exists exactly when the maximal digit run after the dollar sign
has length 1 to 3 and is followed by `k` (a longer run blocks every
choice of the quantifier, because the follower would be a digit). -/
def dollarKAt (l : List Char) : Bool :=
  match l with
  | '$' :: rest =>
    let ds := (rest.takeWhile Char.isDigit).length
    decide (1 ≤ ds) && decide (ds ≤ 3) && ((rest.drop ds).head? == some 'k')
  | _ => false

/-- Match of `\$[0-9]{3,},` at the current position: the greedy run must
take all digits, then a comma must follow. -/
def dollarCommaAt (l : List Char) : Bool :=
  match l with
  | '$' :: rest =>
    let ds := (rest.takeWhile Char.isDigit).length
    decide (3 ≤ ds) && ((rest.drop ds).head? == some ',')
  | _ => false

/-- One-position test of the REVENUE_HINT regex, api/search.js line 187:
`/\$[0-9]{1,3}k|\$[0-9]{3,},|\bannual revenue\b|\bmonthly revenue\b|\brevenue of\b|\bmonthly sales\b/i`
over already lower-cased text. -/
def revHintAt (prev : Option Char) (l : List Char) : Bool :=
  dollarKAt l || dollarCommaAt l ||
  bWordAt prev ("annual revenue".toList) l ||
  bWordAt prev ("monthly revenue".toList) l ||
  bWordAt prev ("revenue of".toList) l ||
  bWordAt prev ("monthly sales".toList) l

/-- Scan of the REVENUE_HINT regex over the whole text. -/
def revHintGo : Option Char → List Char → Bool
  | _, [] => false
  | prev, c :: rest => revHintAt prev (c :: rest) || revHintGo (some c) rest

/-- REVENUE_HINT tag test. -/
def revHintTest (lc : String) : Bool :=
  revHintGo none lc.toList

/-- Tag assignment, api/search.js lines 183-187: tags are pushed in the
fixed order UCC, FUNDING, REVENUE_HINT. -/
def tagsOf (lc : String) : List String :=
  (if tagUCCHit lc then ["UCC"] else []) ++
  (if tagFundingHit lc then ["FUNDING"] else []) ++
  (if revHintTest lc then ["REVENUE_HINT"] else [])

/-- Collapse every run of whitespace into a single space, i.e.
JavaScript `replace(/\s+/g, ' ')`.  The boolean flag records whether the
previous input character was part of a whitespace run already emitted. -/
def collapseWSGo : Bool → List Char → List Char
  | _, [] => []
  | prevSp, c :: rest =>
    if jsSpace c then
      (if prevSp then collapseWSGo true rest
       else ' ' :: collapseWSGo true rest)
    else c :: collapseWSGo false rest

/-- JavaScript `replace(/\s+/g, ' ')` on a character list. -/
def collapseWS (l : List Char) : List Char :=
  collapseWSGo false l

/-- Fetched page as observed by fetchAndExtract after HTML parsing: the
text of the title element (empty when absent) and the text of the body
element. -/
structure Page where
  titleText : String
  bodyText : String
deriving Repr, DecidableEq

/-- Extracted candidate, the success value of fetchAndExtract
(api/search.js lines 195-202). -/
structure Extracted where
  title : String
  url : String
  snippet : String
  source : String
  tags : List String
  uccMatches : List String
deriving Repr, DecidableEq

/-- Body excerpt, api/search.js line 178:
`$('body').text().replace(/\s+/g,' ').slice(0, 3000)`. -/
def excerptOf (p : Page) : String :=
  String.mk ((collapseWS p.bodyText.toList).take 3000)

/-- URL scheme check of api/search.js line 171; a falsy (empty) url also
fails it, so the `!url` disjunct of the source is subsumed. -/
def validUrl (u : String) : Bool :=
  startsWithL "http://".toList u.toList ||
  startsWithL "https://".toList u.toList

/-- fetchAndExtract, api/search.js lines 168-208.  `allow` is the
robots gate and `fetchPage` the outcome of the page fetch (`none` for a
timeout, network error or any other raised error: the catch block turns
every failure into `null`). -/
def fetchAndExtract (allow : String → Bool) (fetchPage : String → Option Page)
    (item : Hit) : Option Extracted :=
  let url := item.url
  if ¬ validUrl url then none
  else if ¬ allow url then none
  else
    match fetchPage url with
    | none => none
    | some p =>
      let title := if p.titleText ≠ "" then p.titleText
        else if item.title ≠ "" then item.title else url
      let text := excerptOf p
      let snippet := if item.snippet ≠ "" then item.snippet
        else String.mk (text.toList.take 300)
      let lc := lowerStr (title ++ " " ++ snippet ++ " " ++ text)
      some { title := jsTrim title
             url := url
             snippet := jsTrim snippet
             source := if item.source ≠ "" then item.source else "web"
             tags := tagsOf lc
             uccMatches := (extractUCC text).take 5 }

/-- Score function of the ranking comparator, api/search.js line 292:
`(it.tags.includes('UCC') ? 100 : 0) + (it.tags.includes('FUNDING') ? 50 : 0) + (it.uccMatches?.length || 0)*10`. -/
def score (it : Extracted) : Nat :=
  (if "UCC" ∈ it.tags then 100 else 0) +
  (if "FUNDING" ∈ it.tags then 50 else 0) +
  it.uccMatches.length * 10

/-- Order used to model the stable JavaScript sort with comparator
`score(b) - score(a)`: a stays before b when its score is strictly
larger, or on equal scores when its original position is not later.
Sorting the position-tagged list by this total order is exactly the
stable descending sort the ECMAScript specification guarantees. -/
def rankLE (a b : Nat × Extracted) : Bool :=
  decide (score b.2 < score a.2) ||
  (decide (score a.2 = score b.2) && decide (a.1 ≤ b.1))

/-- Insertion of one position-tagged candidate into an already sorted
list: it goes after every element that precedes it in the rankLE order.
Since rankLE is total and breaks score ties by the original position,
sorting with it produces the unique permutation that is the stable
descending sort. -/
def insertLE (x : Nat × Extracted) :
    List (Nat × Extracted) → List (Nat × Extracted)
  | [] => [x]
  | y :: ys => if rankLE y x then y :: insertLE x ys else x :: y :: ys

/-- Insertion sort by rankLE. -/
def isortLE : List (Nat × Extracted) → List (Nat × Extracted)
  | [] => []
  | x :: xs => insertLE x (isortLE xs)

/-- Stable descending sort of the extracted candidates, tagged with
their pre-sort positions (api/search.js lines 291-294). -/
def rankEnum (l : List Extracted) : List (Nat × Extracted) :=
  isortLE l.enum

/-- Ranked candidate list: api/search.js `extracted.sort(...)`. -/
def rank (l : List Extracted) : List Extracted :=
  (rankEnum l).map Prod.snd

/-- Outcome of a network fetch as seen through axios: a body on success,
a raised error otherwise (timeouts raise). -/
inductive FetchResult where
  | ok (body : String)
  | err (msg : String)
deriving Repr, DecidableEq

/-- Parsed robots.txt policy as exposed by the robots-parser library:
a decision function over (url, user agent). -/
structure RobotsPolicy where
  isAllowed : String → String → Bool

/-- Identification string sent on outbound requests
(api/search.js line 97). -/
def userAgent : String := "MCA-Lead-Finder/1.0 (+https://yourdomain.example)"

/-- allowedToCrawl, api/search.js lines 154-165.  The three statements of
the try block are modelled by oracles: `parseOrigin` is the URL
constructor (none when it throws), `fetchRobots` the robots.txt request,
`robotsParse` the robots-parser constructor (none when it throws).  Any
failure lands in the catch block, which returns true. -/
def allowedToCrawl (parseOrigin : String → Option String)
    (fetchRobots : String → FetchResult)
    (robotsParse : String → Option RobotsPolicy)
    (url : String) : Bool :=
  match parseOrigin url with
  | none => true
  | some origin =>
    match fetchRobots (origin ++ "/robots.txt") with
    | .err _ => true
    | .ok body =>
      match robotsParse body with
      | none => true
      | some pol => pol.isAllowed url userAgent

/-- Environment of one handler invocation: configured credentials and
the outcomes of every possible network call.  Provider functions return
the normalized hits for a query; a provider error is already folded to
[] inside callSerpApi / callBing / callGoogleCSE (their catch blocks). -/
structure Env where
  serpKey : Bool
  bingKey : Bool
  googleKey : Bool
  serp : String → List Hit
  bing : String → List Hit
  google : String → List Hit
  ddg : List Hit
  parseOrigin : String → Option String
  fetchRobots : String → FetchResult
  robotsParse : String → Option RobotsPolicy
  fetchPage : String → Option Page

/-- Query templates, api/search.js lines 212-222. -/
def buildQueries (q : String) : List String :=
  [ q ++ " \"merchant cash advance\" OR \"MCA\" OR \"seeking funding\"",
    q ++ " \"UCC-1\" OR \"UCC 1\" OR \"financing statement\"",
    "site:.gov " ++ q ++ " \"UCC-1\"",
    "site:*.state.* " ++ q ++ " \"financing statement\"",
    q ++ " \"seeking funding\" \"apply for funding\"",
    "\"" ++ q ++ "\" \"seeking funding\" OR \"need funding\"" ]

/-- Network calls issued by the pipeline, for stating which requests a
run performs. -/
inductive Call where
  | provider (name q : String)
  | ddgSearch
  | robotsTxt (url : String)
  | pageGet (url : String)
deriving Repr, DecidableEq

/-- Hits gathered in one round of the fan-out loop (api/search.js lines
237-256): SerpAPI, then Bing, then Google CSE, each only when its
credential is configured. -/
def roundHits (env : Env) (q : String) : List Hit :=
  (if env.serpKey then env.serp q else []) ++
  (if env.bingKey then env.bing q else []) ++
  (if env.googleKey then env.google q else [])

/-- Provider calls issued in one round of the fan-out loop. -/
def roundCalls (env : Env) (q : String) : List Call :=
  (if env.serpKey then [Call.provider "serpapi" q] else []) ++
  (if env.bingKey then [Call.provider "bing" q] else []) ++
  (if env.googleKey then [Call.provider "google" q] else [])

/-- Fan-out loop, api/search.js lines 237-256.  Returns the accumulated
raw hits together with a trace of the issued query rounds: each entry is
the query string and the raw-hit count at the moment the round started.
The early-termination check `rawResults.length >= 30` runs at the end of
each round. -/
def fanOutGo (env : Env) :
    List String → List Hit → List Hit × List (String × Nat)
  | [], acc => (acc, [])
  | q :: qs, acc =>
    let acc2 := acc ++ roundHits env q
    if 30 ≤ acc2.length then (acc2, [(q, acc.length)])
    else
      let rest := fanOutGo env qs acc2
      (rest.1, (q, acc.length) :: rest.2)

/-- Fan-out over the composed queries, starting from an empty result
accumulator. -/
def fanOut (env : Env) (queries : List String) :
    List Hit × List (String × Nat) :=
  fanOutGo env queries []

/-- Network calls issued while processing one candidate page
(allowedToCrawl's robots.txt request, then the page fetch if allowed);
an invalid URL returns before any call. -/
def candidateCalls (env : Env) (item : Hit) : List Call :=
  if ¬ validUrl item.url then []
  else
    (match env.parseOrigin item.url with
      | none => []
      | some origin => [Call.robotsTxt (origin ++ "/robots.txt")]) ++
    (if allowedToCrawl env.parseOrigin env.fetchRobots env.robotsParse
        item.url
     then [Call.pageGet item.url] else [])

/-- Handler response: the 400 client error for a missing topic, or the
200 payload `{query, items}`.  No other success shape exists; per-item
failures never surface (they are filtered out before this point). -/
inductive Resp where
  | clientError (msg : String)
  | ok (query : String) (items : List Extracted)
deriving Repr, DecidableEq

/-- Request handler of api/search.js lines 224-305, paired with the
trace of network calls it issues.  The empty-topic check precedes the
try block, so a rejected request performs no network activity. -/
def runHandler (qParam : Option String) (env : Env) : Resp × List Call :=
  let q := jsTrim (qParam.getD "")
  if q = "" then (Resp.clientError "Missing q", [])
  else
    let fo := fanOut env (buildQueries q)
    let providerCalls := (fo.2.map (fun p => roundCalls env p.1)).flatten
    let raw := if fo.1.isEmpty then env.ddg.take 10 else fo.1
    let ddgCalls := if fo.1.isEmpty then [Call.ddgSearch] else []
    let unique := dedupe raw
    let allow := allowedToCrawl env.parseOrigin env.fetchRobots
      env.robotsParse
    let extracted := unique.filterMap (fetchAndExtract allow env.fetchPage)
    let final := (rank extracted).take 50
    (Resp.ok q final,
      providerCalls ++ ddgCalls ++
        (unique.map (candidateCalls env)).flatten)

namespace Leads

/-- Feed item of api/leads.js: one parsed RSS entry. -/
structure FeedItem where
  title : String
  link : String
  snippet : String
  feed : String
deriving Repr, DecidableEq

/-- Contact fields of the enrichment output record of api/leads.js line
139 (`email: null, phone: null` initially).  The remaining fields of
that record (title, link, snippet, feed, state, business_name, ucc) are
written from the feed item before the contact waterfall starts and none
of the waterfall steps assigns to them, so they are omitted here; `none`
models a JavaScript null or empty string (both falsy under the `!out.x`
guards). -/
structure Contact where
  email : Option String
  phone : Option String
deriving Repr, DecidableEq

/-- OpenCorporates company record as used by the handler (name and
opencorporates_url). -/
structure OCRec where
  ocName : Option String
  url : Option String
deriving Repr, DecidableEq

/-- Environment of one enrichment run: credentials and the outcomes of
the network calls.  `hunter` is the Hunter domain-search result (none
for no result, an error, or a missing value); `pageContact` is what
fetchContactFromPage returns for a url, already folded through its
internal robots gate and catch block (email, phone); `opencorp` is the
OpenCorporates company search; `domainOf` is domainFromUrl (none when
the URL constructor throws). -/
structure LeadsEnv where
  hunterKey : Bool
  opencorpKey : Bool
  hunter : String → Option String
  pageContact : String → Option String × Option String
  opencorp : String → Option OCRec
  domainOf : String → Option String

/-- hunterEmailForDomain, api/leads.js lines 74-86: null without a key
or domain, else the first returned email (none also covers the catch
branch and an empty email list). -/
def hunterEmailForDomain (env : LeadsEnv) (domain : Option String) :
    Option String :=
  if ¬ env.hunterKey then none
  else
    match domain with
    | none => none
    | some d => env.hunter d

/-- openCorpLookup, api/leads.js lines 108-120: null without a key or
name, else the first company (none also covers errors and empty result
lists). -/
def openCorpLookup (env : LeadsEnv) (name : String) : Option OCRec :=
  if ¬ env.opencorpKey ∨ name = "" then none
  else env.opencorp name

/-- Waterfall step 1, api/leads.js lines 155-160: Hunter email by the
domain of the feed link; `if(e) out.email = e`. -/
def hunterStep (env : LeadsEnv) (item : FeedItem) (out : Contact) :
    Contact :=
  match env.domainOf item.link with
  | none => out
  | some d =>
    match hunterEmailForDomain env (some d) with
    | none => out
    | some e => { out with email := some e }

/-- Waterfall step 2, api/leads.js lines 161-164: fetch the page and
scan mailto and tel links.  The email assignment is guarded by
`!out.email`; the phone assignment `if(contact.phone) out.phone = ...`
is unguarded in the source. -/
def pageStep (env : LeadsEnv) (item : FeedItem) (out : Contact) :
    Contact :=
  let contact := env.pageContact item.link
  let out1 := match contact.1 with
    | some e => if out.email = none then { out with email := some e } else out
    | none => out
  match contact.2 with
  | some p => { out1 with phone := some p }
  | none => out1

/-- Hunter retry against the OpenCorporates company URL domain,
api/leads.js lines 173-177 (`if(h) out.email = h`, reachable only with
the email still empty). -/
def ocHunterRetry (env : LeadsEnv) (u : String) (out : Contact) :
    Contact :=
  match env.domainOf u with
  | none => out
  | some d =>
    match hunterEmailForDomain env (some d) with
    | none => out
    | some h => { out with email := some h }

/-- Contact scan of the OpenCorporates company page, api/leads.js lines
178-180: both assignments guarded by the field still being empty. -/
def ocPageRetry (env : LeadsEnv) (u : String) (out : Contact) : Contact :=
  let c2 := env.pageContact u
  let out2 := match c2.1 with
    | some e => if out.email = none then { out with email := some e } else out
    | none => out
  match c2.2 with
  | some p => if out2.phone = none then { out2 with phone := some p } else out2
  | none => out2

/-- Waterfall step 3, api/leads.js lines 166-183: OpenCorporates lookup
and, when a company URL exists and the email is still empty, a Hunter
retry on that domain plus a contact scan of the company page. -/
def ocStep (env : LeadsEnv) (item : FeedItem) (out : Contact) : Contact :=
  if ¬ env.opencorpKey then out
  else
    match openCorpLookup env item.title with
    | none => out
    | some oc =>
      match oc.url with
      | none => out
      | some u =>
        if out.email ≠ none then out
        else ocPageRetry env u (ocHunterRetry env u out)

/-- Intermediate contact states of one enrichment run for one feed
item: before any step, after the Hunter step, after the page scan, and
after the OpenCorporates step. -/
def waterfallTrace (env : LeadsEnv) (item : FeedItem) : List Contact :=
  let c0 : Contact := { email := none, phone := none }
  let c1 := hunterStep env item c0
  let c2 := pageStep env item c1
  let c3 := ocStep env item c2
  [c0, c1, c2, c3]

/-- Final contact fields of one enrichment run. -/
def enrichContact (env : LeadsEnv) (item : FeedItem) : Contact :=
  ocStep env item (pageStep env item
    (hunterStep env item { email := none, phone := none }))

/-- Monotonicity between consecutive waterfall states: a non-empty
field is never overwritten (it keeps its exact value). -/
def contactMono (a b : Contact) : Prop :=
  (∀ e, a.email = some e → b.email = some e) ∧
  (∀ p, a.phone = some p → b.phone = some p)

end Leads

/-- Environment with no credentials and every network call failing. -/
def envNone : Env :=
  { serpKey := false, bingKey := false, googleKey := false,
    serp := fun _ => [], bing := fun _ => [], google := fun _ => [],
    ddg := [], parseOrigin := fun _ => none,
    fetchRobots := fun _ => FetchResult.err "unreachable",
    robotsParse := fun _ => none, fetchPage := fun _ => none }

/-- Sixty-one raw hits with pairwise distinct URLs. -/
def manyHits : List Hit :=
  (List.range 61).map (fun i =>
    { title := "t", url := "u" ++ toString i, snippet := "", source := "s" })

/-- Raw hit number i of the forty-hit scenario. -/
def mkRawHit (i : Nat) : Hit :=
  { title := "t", url := "http://s" ++ toString i, snippet := "",
    source := "serpapi" }

/-- Environment for the forty-hit scenario: the first query round
returns 20 SerpAPI hits (urls s0..s19) and 20 Bing hits (urls s10..s29),
so 40 raw hits of which 10 duplicate earlier URLs. -/
def env40 : Env :=
  { serpKey := true, bingKey := true, googleKey := false,
    serp := fun _ => (List.range 20).map mkRawHit,
    bing := fun _ => (List.range 20).map (fun i => mkRawHit (i + 10)),
    google := fun _ => [], ddg := [], parseOrigin := fun _ => none,
    fetchRobots := fun _ => FetchResult.err "x",
    robotsParse := fun _ => none, fetchPage := fun _ => none }

/-- Provider hit used by the single-candidate scenarios. -/
def provHit : Hit :=
  { title := "T1", url := "http://a.com/page", snippet := "S1",
    source := "serpapi" }

/-- Demo page whose body contains a filing reference. -/
def demoPage : Page :=
  { titleText := "Acme", bodyText := "UCC-1: ABCDE filed" }

/-- Environment where one provider returns one candidate and that
candidate's page fetch fails (times out): fetchPage is none for every
URL, while the robots gate allows (its URL parse throws, which the
catch turns into true). -/
def envFetchFail : Env :=
  { serpKey := true, bingKey := false, googleKey := false,
    serp := fun _ => [provHit], bing := fun _ => [], google := fun _ => [],
    ddg := [], parseOrigin := fun _ => none,
    fetchRobots := fun _ => FetchResult.err "x",
    robotsParse := fun _ => none, fetchPage := fun _ => none }

/-- Environment where one provider returns one candidate and the robots
policy of its site disallows every URL, while the page itself would be
fetchable. -/
def envRobotsDeny : Env :=
  { envFetchFail with
    parseOrigin := fun _ => some "http://a.com",
    fetchRobots := fun _ => FetchResult.ok "User-agent: *\nDisallow: /",
    robotsParse := fun _ => some { isAllowed := fun _ _ => false },
    fetchPage := fun _ => some demoPage }

/-- Demo hit with a valid URL. -/
def demoHit : Hit :=
  { title := "T", url := "http://a.com/x", snippet := "s", source := "bing" }

/-- Robots gate that allows everything. -/
def allowAll : String → Bool := fun _ => true

/-- Page oracle returning demoPage for every URL. -/
def fetchDemo : String → Option Page := fun _ => some demoPage

/-- Value of fetchAndExtract allowAll fetchDemo demoHit. -/
def demoExtracted : Extracted :=
  { title := "Acme", url := "http://a.com/x", snippet := "s",
    source := "bing", tags := ["UCC"], uccMatches := ["ABCDE"] }

/-- Candidate with no tags. -/
def eA : Extracted :=
  { title := "A", url := "u1", snippet := "", source := "s",
    tags := [], uccMatches := [] }

/-- Candidate tagged UCC. -/
def eB : Extracted :=
  { title := "B", url := "u2", snippet := "", source := "s",
    tags := ["UCC"], uccMatches := [] }

/-- Enrichment environment for the witness run. -/
def demoLeadsEnv : Leads.LeadsEnv :=
  { hunterKey := true, opencorpKey := false,
    hunter := fun _ => some "info@b.example",
    pageContact := fun _ => (none, some "+1-555-0100"),
    opencorp := fun _ => none,
    domainOf := fun _ => some "b.example" }

/-- Feed item for the witness run. -/
def demoFeedItem : Leads.FeedItem :=
  { title := "Acme LLC", link := "http://b.example", snippet := "",
    feed := "delaware" }

set_option maxRecDepth 10000

theorem dedupeAux_eq_take_firstOccs (rs : List Hit) :
    ∀ (seen : List String) (n : Nat), n < 60 →
      dedupeAux rs seen n = (firstOccs rs seen).take (60 - n) := by
  induction rs with
  | nil => intro seen n _; simp [dedupeAux, firstOccs]
  | cons r rest ih =>
    intro seen n hn
    by_cases hurl : r.url = ""
    · simp [dedupeAux, firstOccs, hurl, ih seen n hn]
    · by_cases hseen : normKey r.url ∈ seen
      · simp [dedupeAux, firstOccs, hurl, hseen, ih seen n hn]
      · by_cases hcap : 60 ≤ n + 1
        · -- the 60th push: take (60 - 59) = take 1 keeps exactly r
          have hn59 : n = 59 := by omega
          simp [dedupeAux, firstOccs, hurl, hseen, hcap, hn59]
        · have hlt : n + 1 < 60 := by omega
          have h60 : 60 - n = (60 - (n + 1)) + 1 := by omega
          simp only [dedupeAux, firstOccs, hurl, hseen, hcap, if_neg,
            if_pos, ite_false, ite_true]
          rw [h60, List.take_succ_cons,
            ih (normKey r.url :: seen) (n + 1) hlt]

theorem dedupe_eq_take_firstOccs (rs : List Hit) :
    dedupe rs = (firstOccs rs []).take 60 := by
  simpa using dedupeAux_eq_take_firstOccs rs [] 0 (by omega)

theorem firstOccs_sublist (rs : List Hit) :
    ∀ seen, (firstOccs rs seen).Sublist rs := by
  induction rs with
  | nil => intro seen; simp [firstOccs]
  | cons r rest ih =>
    intro seen
    by_cases hurl : r.url = ""
    · simpa [firstOccs, hurl] using (ih seen).cons r
    · by_cases hseen : normKey r.url ∈ seen
      · simpa [firstOccs, hurl, hseen] using (ih seen).cons r
      · simpa [firstOccs, hurl, hseen] using
          (ih (normKey r.url :: seen)).cons₂ r

theorem firstOccs_key_not_seen (rs : List Hit) :
    ∀ seen r, r ∈ firstOccs rs seen → normKey r.url ∉ seen := by
  induction rs with
  | nil => intro seen r hr; simp [firstOccs] at hr
  | cons a rest ih =>
    intro seen r hr
    by_cases hurl : a.url = ""
    · exact ih seen r (by simpa [firstOccs, hurl] using hr)
    · by_cases hseen : normKey a.url ∈ seen
      · exact ih seen r (by simpa [firstOccs, hurl, hseen] using hr)
      · simp only [firstOccs, hurl, hseen, if_neg, if_pos, ite_false,
          ite_true, List.mem_cons] at hr
        rcases hr with rfl | hr
        · exact hseen
        · have := ih (normKey a.url :: seen) r hr
          intro hmem
          exact this (List.mem_cons_of_mem _ hmem)

theorem firstOccs_keys_nodup (rs : List Hit) :
    ∀ seen, (firstOccs rs seen).Pairwise
      (fun a b => normKey a.url ≠ normKey b.url) := by
  induction rs with
  | nil => intro seen; simp [firstOccs]
  | cons a rest ih =>
    intro seen
    by_cases hurl : a.url = ""
    · simpa [firstOccs, hurl] using ih seen
    · by_cases hseen : normKey a.url ∈ seen
      · simpa [firstOccs, hurl, hseen] using ih seen
      · simp only [firstOccs, hurl, hseen, ite_false, ite_true,
          if_neg, if_pos]
        refine List.Pairwise.cons ?_ (ih (normKey a.url :: seen))
        intro b hb
        have := firstOccs_key_not_seen rest (normKey a.url :: seen) b hb
        intro heq
        exact this (heq ▸ List.mem_cons_self _ _)

theorem firstOccs_url_ne_empty (rs : List Hit) :
    ∀ seen r, r ∈ firstOccs rs seen → r.url ≠ "" := by
  induction rs with
  | nil => intro seen r hr; simp [firstOccs] at hr
  | cons a rest ih =>
    intro seen r hr
    by_cases hurl : a.url = ""
    · exact ih seen r (by simpa [firstOccs, hurl] using hr)
    · by_cases hseen : normKey a.url ∈ seen
      · exact ih seen r (by simpa [firstOccs, hurl, hseen] using hr)
      · simp only [firstOccs, hurl, hseen, ite_false, ite_true,
          if_neg, if_pos, List.mem_cons] at hr
        rcases hr with rfl | hr
        · exact hurl
        · exact ih (normKey a.url :: seen) r hr

theorem dedupe_sublist (rs : List Hit) : (dedupe rs).Sublist rs :=
  (dedupe_eq_take_firstOccs rs ▸ List.take_sublist 60 _).trans
    (firstOccs_sublist rs [])

theorem dedupe_keys_nodup (rs : List Hit) :
    (dedupe rs).Pairwise (fun a b => normKey a.url ≠ normKey b.url) := by
  rw [dedupe_eq_take_firstOccs]
  exact (firstOccs_keys_nodup rs []).sublist (List.take_sublist 60 _)

theorem dedupe_length_le (rs : List Hit) : (dedupe rs).length ≤ 60 := by
  rw [dedupe_eq_take_firstOccs]
  exact List.length_take_le 60 (firstOccs rs [])

theorem dedupe_url_ne_empty (rs : List Hit) :
    ∀ r, r ∈ dedupe rs → r.url ≠ "" := by
  intro r hr
  rw [dedupe_eq_take_firstOccs] at hr
  exact firstOccs_url_ne_empty rs [] r ((List.take_sublist 60 _).mem hr)

theorem capFrom_shape (l5 cap rem : List Char)
    (h : capFrom l5 = some (cap, rem)) :
    5 ≤ cap.length ∧ cap.length ≤ 50 ∧ ∀ c ∈ cap, uccRefChar c := by
  simp only [capFrom] at h
  split at h
  · simp at h
  · simp only [Option.some.injEq, Prod.mk.injEq] at h
    obtain ⟨hcap, _⟩ := h
    subst hcap
    refine ⟨?_, ?_, ?_⟩
    · rw [List.length_take]
      omega
    · rw [List.length_take]
      omega
    · intro c hc
      exact List.mem_takeWhile_imp (List.take_subset _ _ hc)

theorem matchUCCAt_none_or (prev : Option Char) (l : List Char) :
    matchUCCAt prev l = none ∨
      ∃ l5, matchUCCAt prev l = capFrom l5 := by
  unfold matchUCCAt
  cases uccStem prev l with
  | none => exact Or.inl rfl
  | some l5 => exact Or.inr ⟨l5, rfl⟩

theorem matchUCCAt_shape (prev : Option Char) (l cap rem : List Char)
    (h : matchUCCAt prev l = some (cap, rem)) :
    5 ≤ cap.length ∧ cap.length ≤ 50 ∧ ∀ c ∈ cap, uccRefChar c := by
  rcases matchUCCAt_none_or prev l with hn | ⟨l5, he⟩
  · rw [hn] at h; simp at h
  · rw [he] at h
    exact capFrom_shape l5 cap rem h

theorem scanUCCGo_shape (fuel : Nat) :
    ∀ prev l cap, cap ∈ scanUCCGo fuel prev l →
      5 ≤ cap.length ∧ cap.length ≤ 50 ∧ ∀ c ∈ cap, uccRefChar c := by
  induction fuel with
  | zero => intro prev l cap hc; simp [scanUCCGo] at hc
  | succ n ih =>
    intro prev l cap hc
    cases l with
    | nil => simp [scanUCCGo] at hc
    | cons c rest =>
      cases hm : matchUCCAt prev (c :: rest) with
      | none =>
        simp only [scanUCCGo, hm] at hc
        exact ih (some c) rest cap hc
      | some pr =>
        obtain ⟨cp, rm⟩ := pr
        simp only [scanUCCGo, hm] at hc
        rcases List.mem_cons.mp hc with rfl | htail
        · exact matchUCCAt_shape prev (c :: rest) cap rm hm
        · exact ih cp.getLast? rm cap htail

theorem rankLE_trans (a b c : Nat × Extracted) :
    rankLE a b = true → rankLE b c = true → rankLE a c = true := by
  simp only [rankLE, Bool.or_eq_true, Bool.and_eq_true, decide_eq_true_eq]
  intro hab hbc
  rcases hab with h1 | ⟨h2, h3⟩ <;> rcases hbc with h4 | ⟨h5, h6⟩ <;> omega

theorem rankLE_total (a b : Nat × Extracted) :
    (rankLE a b || rankLE b a) = true := by
  simp only [rankLE, Bool.or_eq_true, Bool.and_eq_true, decide_eq_true_eq]
  omega

theorem insertLE_perm (x : Nat × Extracted) (l : List (Nat × Extracted)) :
    (insertLE x l).Perm (x :: l) := by
  induction l with
  | nil => simp [insertLE]
  | cons y ys ih =>
    simp only [insertLE]
    split
    · exact (ih.cons y).trans (List.Perm.swap x y ys)
    · exact List.Perm.refl _

theorem isortLE_perm (l : List (Nat × Extracted)) :
    (isortLE l).Perm l := by
  induction l with
  | nil => simp [isortLE]
  | cons x xs ih => exact (insertLE_perm x (isortLE xs)).trans (ih.cons x)

theorem insertLE_sorted (x : Nat × Extracted)
    (l : List (Nat × Extracted))
    (hl : l.Pairwise (fun a b => rankLE a b = true)) :
    (insertLE x l).Pairwise (fun a b => rankLE a b = true) := by
  induction l with
  | nil => simp [insertLE]
  | cons y ys ih =>
    rcases List.pairwise_cons.mp hl with ⟨hy, hys⟩
    simp only [insertLE]
    split
    · rename_i hyx
      refine List.pairwise_cons.mpr ⟨?_, ih hys⟩
      intro z hz
      have hz2 : z = x ∨ z ∈ ys :=
        List.mem_cons.mp ((insertLE_perm x ys).mem_iff.mp hz)
      rcases hz2 with rfl | hzys
      · exact hyx
      · exact hy z hzys
    · rename_i hyx
      have hxy : rankLE x y = true := by
        have htot := rankLE_total x y
        rcases Bool.or_eq_true_iff.mp htot with h | h
        · exact h
        · exact absurd h hyx
      refine List.pairwise_cons.mpr ⟨?_, hl⟩
      intro z hz
      rcases List.mem_cons.mp hz with rfl | hzys
      · exact hxy
      · exact rankLE_trans x y z hxy (hy z hzys)

theorem isortLE_sorted (l : List (Nat × Extracted)) :
    (isortLE l).Pairwise (fun a b => rankLE a b = true) := by
  induction l with
  | nil => simp [isortLE]
  | cons x xs ih => exact insertLE_sorted x (isortLE xs) ih

theorem rankEnum_pairwise (l : List Extracted) :
    (rankEnum l).Pairwise (fun a b => rankLE a b = true) :=
  isortLE_sorted l.enum

theorem rankEnum_perm (l : List Extracted) :
    (rankEnum l).Perm l.enum :=
  isortLE_perm l.enum

theorem rankEnum_fst_nodup (l : List Extracted) :
    (rankEnum l).Pairwise (fun a b => a.1 ≠ b.1) := by
  have hperm : ((rankEnum l).map Prod.fst).Perm (l.enum.map Prod.fst) :=
    (rankEnum_perm l).map Prod.fst
  have hnd : ((rankEnum l).map Prod.fst).Nodup := by
    rw [hperm.nodup_iff, List.enum_map_fst]
    exact List.nodup_range l.length
  exact List.pairwise_map.mp hnd

theorem rank_sorted (l : List Extracted) :
    (rank l).Pairwise (fun a b => score b ≤ score a) := by
  unfold rank
  refine List.pairwise_map.mpr ?_
  refine (rankEnum_pairwise l).imp ?_
  intro a b hab
  simp only [rankLE, Bool.or_eq_true, Bool.and_eq_true,
    decide_eq_true_eq] at hab
  omega

theorem rankEnum_stable (l : List Extracted) :
    (rankEnum l).Pairwise
      (fun a b => score a.2 = score b.2 → a.1 < b.1) := by
  refine ((rankEnum_pairwise l).and (rankEnum_fst_nodup l)).imp ?_
  intro a b hab heq
  obtain ⟨hle, hne⟩ := hab
  simp only [rankLE, Bool.or_eq_true, Bool.and_eq_true,
    decide_eq_true_eq] at hle
  omega

theorem rank_perm (l : List Extracted) : (rank l).Perm l := by
  unfold rank
  have := (rankEnum_perm l).map Prod.snd
  rwa [List.enum_map_snd] at this

theorem fanOutGo_precount_lt (env : Env) (qs : List String) :
    ∀ acc : List Hit, acc.length < 30 →
      ∀ p ∈ (fanOutGo env qs acc).2, p.2 < 30 := by
  induction qs with
  | nil => intro acc h p hp; simp [fanOutGo] at hp
  | cons q rest ih =>
    intro acc h p hp
    simp only [fanOutGo] at hp
    split at hp
    · simp only [List.mem_singleton] at hp
      subst hp
      exact h
    · rename_i hlt
      rcases List.mem_cons.mp hp with rfl | htail
      · exact h
      · exact ih (acc ++ roundHits env q) (by omega) p htail

namespace Leads

theorem hunterStep_phone (env : LeadsEnv) (item : FeedItem)
    (out : Contact) : (hunterStep env item out).phone = out.phone := by
  unfold hunterStep
  split
  · rfl
  · split
    · rfl
    · rfl

theorem pageStep_email_mono (env : LeadsEnv) (item : FeedItem)
    (out : Contact) (e : String) (h : out.email = some e) :
    (pageStep env item out).email = some e := by
  simp only [pageStep]
  repeat' split
  all_goals simp_all

theorem ocStep_of_email_some (env : LeadsEnv) (item : FeedItem)
    (out : Contact) (e : String) (h : out.email = some e) :
    ocStep env item out = out := by
  unfold ocStep
  split
  · rfl
  · split
    · rfl
    · split
      · rfl
      · split
        · rfl
        · rename_i hcond
          exact absurd (by simp [h]) hcond

theorem ocHunterRetry_phone (env : LeadsEnv) (u : String)
    (out : Contact) : (ocHunterRetry env u out).phone = out.phone := by
  unfold ocHunterRetry
  split
  · rfl
  · split
    · rfl
    · rfl

theorem ocPageRetry_phone_mono (env : LeadsEnv) (u : String)
    (out : Contact) (p : String) (hp : out.phone = some p) :
    (ocPageRetry env u out).phone = some p := by
  simp only [ocPageRetry]
  by_cases hem : out.email = none <;>
    cases hc1 : (env.pageContact u).1 <;>
    cases hc2 : (env.pageContact u).2 <;>
    simp_all

theorem ocStep_phone_mono (env : LeadsEnv) (item : FeedItem)
    (out : Contact) (p : String) (hp : out.phone = some p) :
    (ocStep env item out).phone = some p := by
  unfold ocStep
  split
  · exact hp
  · split
    · exact hp
    · split
      · exact hp
      · split
        · exact hp
        · exact ocPageRetry_phone_mono env _ _ p
            (by rw [ocHunterRetry_phone]; exact hp)

end Leads

theorem fetchAndExtract_fetch_none (allow : String → Bool)
    (fp : String → Option Page) (item : Hit) (hfp : fp item.url = none) :
    fetchAndExtract allow fp item = none := by
  simp [fetchAndExtract, hfp]

theorem fetchAndExtract_denied (allow : String → Bool)
    (fp : String → Option Page) (item : Hit)
    (hdeny : allow item.url = false) :
    fetchAndExtract allow fp item = none := by
  simp [fetchAndExtract, hdeny]

theorem fetchAndExtract_some_ucc (allow : String → Bool)
    (fp : String → Option Page) (item : Hit) (e : Extracted) (p : Page)
    (hfp : fp item.url = some p)
    (h : fetchAndExtract allow fp item = some e) :
    e.uccMatches = (extractUCC (excerptOf p)).take 5 := by
  simp only [fetchAndExtract, hfp] at h
  split at h
  · exact absurd h (by simp)
  · split at h
    · exact absurd h (by simp)
    · simp only [Option.some.injEq] at h
      subst h
      rfl

theorem fetchAndExtract_ucc_le (allow : String → Bool)
    (fp : String → Option Page) (item : Hit) (e : Extracted)
    (h : fetchAndExtract allow fp item = some e) :
    e.uccMatches.length ≤ 5 := by
  simp only [fetchAndExtract] at h
  split at h
  · exact absurd h (by simp)
  · split at h
    · exact absurd h (by simp)
    · split at h
      · exact absurd h (by simp)
      · simp only [Option.some.injEq] at h
        subst h
        exact List.length_take_le 5 _

theorem runHandler_ok_of_nonempty (qParam : Option String) (env : Env)
    (h : jsTrim (qParam.getD "") ≠ "") :
    ∃ items, (runHandler qParam env).1 =
      Resp.ok (jsTrim (qParam.getD "")) items := by
  simp only [runHandler]
  rw [if_neg h]
  exact ⟨_, rfl⟩

theorem runHandler_items_le_50 (qParam : Option String) (env : Env)
    (q : String) (items : List Extracted)
    (h : (runHandler qParam env).1 = Resp.ok q items) :
    items.length ≤ 50 := by
  simp only [runHandler] at h
  split at h
  · exact absurd h (by simp)
  · simp only [Resp.ok.injEq] at h
    obtain ⟨-, h2⟩ := h
    subst h2
    exact List.length_take_le 50 _

/-- C1 counterexample: one provider candidate whose page fetch fails
(the fetchPage oracle is none for every URL, as after a timeout).  The
claim says the candidate still appears in the final output with its
provider-supplied fields; in fact the handler returns an empty item
list — fetchAndExtract yields null, which filter(Boolean) removes. -/
theorem claim_c1_counterexample :
    envFetchFail.fetchPage "http://a.com/page" = none ∧
    (runHandler (some "acme") envFetchFail).1 = Resp.ok "acme" [] :=
  ⟨rfl, by decide⟩

/-- C1 (amended): a page-fetch failure makes fetchAndExtract return
none, so the candidate is dropped from the final output entirely; the
failure stays local — the handler still answers with a success response
for any non-empty topic (the batch never fails). -/
theorem claim_c1_failure_drops_candidate (allow : String → Bool)
    (fp : String → Option Page) (item : Hit) (qParam : Option String)
    (env : Env) (hfp : fp item.url = none)
    (hq : jsTrim (qParam.getD "") ≠ "") :
    fetchAndExtract allow fp item = none ∧
    ∃ items, (runHandler qParam env).1 =
      Resp.ok (jsTrim (qParam.getD "")) items :=
  ⟨fetchAndExtract_fetch_none allow fp item hfp,
    runHandler_ok_of_nonempty qParam env hq⟩

/-- C1 witness: the amended statement at a concrete failing fetch and a
concrete environment. -/
theorem claim_c1_witness :
    fetchAndExtract allowAll (fun _ => none) demoHit = none ∧
    ∃ items, (runHandler (some "acme") envFetchFail).1 =
      Resp.ok (jsTrim ((some "acme").getD "")) items :=
  claim_c1_failure_drops_candidate allowAll (fun _ => none) demoHit
    (some "acme") envFetchFail rfl (by decide)

/-- C2 counterexample: one provider candidate whose site robots policy
denies every URL while the page itself would be fetchable.  The claim
says the candidate is still present in the final output with its
search-derived fields; in fact the handler returns an empty item list —
fetchAndExtract returns null at the robots gate and the candidate is
removed. -/
theorem claim_c2_counterexample :
    allowedToCrawl envRobotsDeny.parseOrigin envRobotsDeny.fetchRobots
      envRobotsDeny.robotsParse "http://a.com/page" = false ∧
    envRobotsDeny.fetchPage "http://a.com/page" = some demoPage ∧
    (runHandler (some "acme") envRobotsDeny).1 = Resp.ok "acme" [] :=
  ⟨rfl, rfl, by decide⟩

/-- C2 (amended): a robots denial makes fetchAndExtract return none, so
the candidate is dropped from the final output entirely (not merely
skipped for fetch-dependent enrichment); the other candidates of the
batch are unaffected. -/
theorem claim_c2_denied_drops_candidate (allow : String → Bool)
    (fp : String → Option Page) (item : Hit) (l1 l2 : List Hit)
    (hdeny : allow item.url = false) :
    fetchAndExtract allow fp item = none ∧
    (l1 ++ item :: l2).filterMap (fetchAndExtract allow fp) =
      l1.filterMap (fetchAndExtract allow fp) ++
      l2.filterMap (fetchAndExtract allow fp) := by
  have h1 := fetchAndExtract_denied allow fp item hdeny
  refine ⟨h1, ?_⟩
  rw [List.filterMap_append, List.filterMap_cons_none h1]

/-- C2 witness: the amended statement at a concrete denying gate. -/
theorem claim_c2_witness :
    fetchAndExtract (fun _ => false) fetchDemo demoHit = none ∧
    ([] ++ demoHit :: []).filterMap
        (fetchAndExtract (fun _ => false) fetchDemo) =
      ([] : List Hit).filterMap
        (fetchAndExtract (fun _ => false) fetchDemo) ++
      ([] : List Hit).filterMap
        (fetchAndExtract (fun _ => false) fetchDemo) :=
  claim_c2_denied_drops_candidate (fun _ => false) fetchDemo demoHit
    [] [] rfl

/-- C3 counterexample: the claim says the collected filing-reference
matches are distinct and that the 1 after UCC is optional.  On a body
with the same reference twice the extractor collects the duplicate
(["ABCDE", "ABCDE"], not Nodup), and on a reference written without the
1 (UCC: ABCDEF) it collects nothing, refuting both parts at concrete
inputs. -/
theorem claim_c3_counterexample :
    extractUCC "UCC-1: ABCDE UCC-1: ABCDE" = ["ABCDE", "ABCDE"] ∧
    ¬ (extractUCC "UCC-1: ABCDE UCC-1: ABCDE").Nodup ∧
    extractUCC "UCC: ABCDEF" = [] :=
  ⟨by decide, by decide, by decide⟩

/-- C3 (amended): the extractor scans the raw (not lower-cased) body
excerpt and collects at most 5 matches in first-seen order, duplicates
included; a filing reference requires the literal UCC (case-insensitive)
followed by optional hyphens/whitespace, a mandatory 1, an optional
separator, and a captured run of 5 to 50 alphanumerics/hyphens/slashes
(every collected capture has that shape). -/
theorem claim_c3_filing_matches (t : String) (s : String)
    (allow : String → Bool) (fp : String → Option Page) (item : Hit)
    (e : Extracted) (p : Page)
    (hs : s ∈ extractUCC t) (hfp : fp item.url = some p)
    (hfe : fetchAndExtract allow fp item = some e) :
    ((extractUCC t).take 5).length ≤ 5 ∧
    (5 ≤ s.length ∧ s.length ≤ 50 ∧ s.toList.all uccRefChar = true) ∧
    e.uccMatches = (extractUCC (excerptOf p)).take 5 := by
  refine ⟨List.length_take_le 5 _, ?_,
    fetchAndExtract_some_ucc allow fp item e p hfp hfe⟩
  obtain ⟨cap, hcap, rfl⟩ := List.mem_map.mp hs
  obtain ⟨h5, h50, hall⟩ := scanUCCGo_shape _ none t.toList cap hcap
  exact ⟨h5, h50, List.all_eq_true.mpr hall⟩

/-- C3 witness: the amended statement at a concrete page and capture. -/
theorem claim_c3_witness :
    ((extractUCC "UCC-1: ABCDE").take 5).length ≤ 5 ∧
    (5 ≤ ("ABCDE" : String).length ∧ ("ABCDE" : String).length ≤ 50 ∧
      ("ABCDE" : String).toList.all uccRefChar = true) ∧
    demoExtracted.uccMatches = (extractUCC (excerptOf demoPage)).take 5 :=
  claim_c3_filing_matches "UCC-1: ABCDE" "ABCDE" allowAll fetchDemo
    demoHit demoExtracted demoPage (by decide) rfl (by decide)

/-- C4: the ranked output is sorted by non-increasing score, equal-score
candidates keep their pre-sort relative order (the position-tagged sort
is stable), the ranked list is a permutation of its input, the handler
returns at most 50 items, and the filing-reference count entering the
score is capped at 5 for every extracted candidate. -/
theorem claim_c4_ranking (l : List Extracted) (qParam : Option String)
    (env : Env) (q : String) (items : List Extracted)
    (allow : String → Bool) (fp : String → Option Page) (item : Hit)
    (e : Extracted)
    (hresp : (runHandler qParam env).1 = Resp.ok q items)
    (hfe : fetchAndExtract allow fp item = some e) :
    (rank l).Pairwise (fun a b => score b ≤ score a) ∧
    (rankEnum l).Pairwise (fun a b => score a.2 = score b.2 → a.1 < b.1) ∧
    rank l = (rankEnum l).map Prod.snd ∧
    (rank l).Perm l ∧
    items.length ≤ 50 ∧
    e.uccMatches.length ≤ 5 :=
  ⟨rank_sorted l, rankEnum_stable l, rfl, rank_perm l,
    runHandler_items_le_50 qParam env q items hresp,
    fetchAndExtract_ucc_le allow fp item e hfe⟩

/-- C4 witness: the ranking statement at a concrete list with a
score tie and a concrete handler run. -/
theorem claim_c4_witness :
    (rank [eA, eB, eA]).Pairwise (fun a b => score b ≤ score a) ∧
    (rankEnum [eA, eB, eA]).Pairwise
      (fun a b => score a.2 = score b.2 → a.1 < b.1) ∧
    rank [eA, eB, eA] = (rankEnum [eA, eB, eA]).map Prod.snd ∧
    (rank [eA, eB, eA]).Perm [eA, eB, eA] ∧
    ([] : List Extracted).length ≤ 50 ∧
    demoExtracted.uccMatches.length ≤ 5 :=
  claim_c4_ranking [eA, eB, eA] (some "acme") envFetchFail "acme" []
    allowAll fetchDemo demoHit demoExtracted (by decide) (by decide)

/-- C5 counterexample: the claim says the deduplicated output keeps
exactly the first occurrence of each normalized key, for every list of
raw hits.  On 61 hits with pairwise distinct keys the loop stops at 60
survivors, so the first (and only) occurrence of the 61st key u60 is
dropped even though it is present in the input, refuting the claim at
this input. -/
theorem claim_c5_counterexample :
    (dedupe manyHits).length = 60 ∧
    ({ title := "t", url := "u60", snippet := "", source := "s" } : Hit)
      ∉ dedupe manyHits ∧
    ({ title := "t", url := "u60", snippet := "", source := "s" } : Hit)
      ∈ manyHits := by
  decide

/-- C5 (amended): the deduplicated output has pairwise distinct
normalized keys, is an order-preserving sublist of the input, drops
every hit with an empty url, and equals the uncapped first-occurrence
filter truncated to its first 60 survivors (so first occurrence wins
only until 60 unique URLs have been collected). -/
theorem claim_c5_amended (rs : List Hit) :
    dedupe rs = (firstOccs rs []).take 60 ∧
    (dedupe rs).Pairwise (fun a b => normKey a.url ≠ normKey b.url) ∧
    (dedupe rs).Sublist rs ∧
    ((dedupe rs).all (fun r => r.url != "")) = true :=
  ⟨dedupe_eq_take_firstOccs rs, dedupe_keys_nodup rs, dedupe_sublist rs,
    List.all_eq_true.mpr (fun r hr =>
      bne_iff_ne.mpr (dedupe_url_ne_empty rs r hr))⟩

/-- C5 witness: the amended statement evaluated on a concrete list with
a duplicate URL. -/
theorem claim_c5_witness :
    dedupe [demoHit, demoHit] = (firstOccs [demoHit, demoHit] []).take 60 :=
  (claim_c5_amended [demoHit, demoHit]).1

/-- C6: when the robots.txt request fails (network error or timeout,
both of which raise in axios) or the robots parse throws, the catch
block makes allowedToCrawl return true (fallback-allow). -/
theorem claim_c6_fallback_allow (parseOrigin : String → Option String)
    (fetchRobots : String → FetchResult)
    (robotsParse : String → Option RobotsPolicy) (url origin : String)
    (hpo : parseOrigin url = some origin) :
    (∀ msg, fetchRobots (origin ++ "/robots.txt") = FetchResult.err msg →
      allowedToCrawl parseOrigin fetchRobots robotsParse url = true) ∧
    (∀ body, fetchRobots (origin ++ "/robots.txt") = FetchResult.ok body →
      robotsParse body = none →
      allowedToCrawl parseOrigin fetchRobots robotsParse url = true) := by
  constructor
  · intro msg hf
    simp only [allowedToCrawl, hpo, hf]
  · intro body hf hp
    simp only [allowedToCrawl, hpo, hf, hp]

/-- C6 witness: a concrete robots fetch timeout yields true. -/
theorem claim_c6_witness :
    allowedToCrawl (fun _ => some "http://a.com")
      (fun _ => FetchResult.err "timeout") (fun _ => none)
      "http://a.com/p" = true :=
  (claim_c6_fallback_allow (fun _ => some "http://a.com")
      (fun _ => FetchResult.err "timeout") (fun _ => none)
      "http://a.com/p" "http://a.com" rfl).1 "timeout" rfl

/-- C7: within one enrichment run, every consecutive pair of waterfall
states is monotonic — a non-empty email or phone field is never
overwritten by a later step (Hunter lookup, page mailto/tel scan, or
the OpenCorporates-driven retry); each later step only fills a field
that is still empty. -/
theorem claim_c7_waterfall_monotonic (env : Leads.LeadsEnv)
    (item : Leads.FeedItem) :
    List.Chain' Leads.contactMono (Leads.waterfallTrace env item) := by
  simp only [Leads.waterfallTrace]
  refine List.chain'_cons.mpr ⟨?_, List.chain'_cons.mpr ⟨?_,
    List.chain'_cons.mpr ⟨?_, List.chain'_singleton _⟩⟩⟩
  · constructor
    · intro e he
      simp at he
    · intro p hp
      simp at hp
  · constructor
    · intro e he
      exact Leads.pageStep_email_mono env item _ e he
    · intro p hp
      rw [Leads.hunterStep_phone] at hp
      simp at hp
  · constructor
    · intro e he
      rw [Leads.ocStep_of_email_some env item _ e he]
      exact he
    · intro p hp
      exact Leads.ocStep_phone_mono env item _ p hp

/-- C7 witness: the waterfall trace of a concrete run is monotonic. -/
theorem claim_c7_witness :
    List.Chain' Leads.contactMono
      (Leads.waterfallTrace demoLeadsEnv demoFeedItem) :=
  claim_c7_waterfall_monotonic demoLeadsEnv demoFeedItem

/-- C8: the fan-out loop starts a query round only while the
accumulated raw-hit count is below 30 — every entry of the issued-round
trace records a starting count under the threshold, so once the count
reaches 30 at a round boundary no further query is issued; and the
concrete scenario: providers returning 40 raw hits of which 10
duplicate earlier URLs yield exactly 30 unique candidates entering the
extraction stage. -/
theorem claim_c8_early_termination (env : Env) (qs : List String)
    (acc : List Hit) (h : acc.length < 30) :
    (∀ p ∈ (fanOutGo env qs acc).2, p.2 < 30) ∧
    (fanOut env40 (buildQueries "test")).1.length = 40 ∧
    (dedupe (fanOut env40 (buildQueries "test")).1).length = 30 :=
  ⟨fanOutGo_precount_lt env qs acc h, by decide, by decide⟩

/-- C8 witness: on the concrete scenario environment the first issued
round of the trace starts with a raw-hit count below the threshold. -/
theorem claim_c8_witness :
    ((fanOutGo env40 (buildQueries "test") []).2.headD ("", 0)).2 < 30 :=
  (claim_c8_early_termination env40 (buildQueries "test") []
    (by decide)).1 _ (by decide)

/-- C9: a missing, empty or whitespace-only topic (empty after trim)
yields the 400 client error, and the pipeline does not run: the call
trace is empty and the response does not depend on the environment, so
no provider query, robots fetch or page fetch is issued. -/
theorem claim_c9_empty_topic (qParam : Option String) (env : Env)
    (h : jsTrim (qParam.getD "") = "") :
    runHandler qParam env = (Resp.clientError "Missing q", []) := by
  unfold runHandler
  simp [h]

/-- C9 witness: a whitespace-only topic against a concrete environment. -/
theorem claim_c9_witness :
    runHandler (some "   ") envNone = (Resp.clientError "Missing q", []) :=
  claim_c9_empty_topic (some "   ") envNone (by decide)

/-- C10: the dedup stage of the core search handler keeps at most 60
candidates, every kept candidate has a non-empty url (hits with a
missing or empty url are silently dropped), and therefore at most 60
candidates are ever handed to the fetch-and-extract stage. -/
theorem claim_c10_dedupe_cap (rs : List Hit) (allow : String → Bool)
    (fp : String → Option Page) :
    (dedupe rs).length ≤ 60 ∧
    ((dedupe rs).all (fun r => r.url != "")) = true ∧
    ((dedupe rs).filterMap (fetchAndExtract allow fp)).length ≤ 60 :=
  ⟨dedupe_length_le rs,
    List.all_eq_true.mpr (fun r hr =>
      bne_iff_ne.mpr (dedupe_url_ne_empty rs r hr)),
    le_trans (List.length_filterMap_le _ _) (dedupe_length_le rs)⟩

end MCA
